import Mathlib

/-!
Verification of the hand_mat capture pipeline: the seeded dataset splitter
(`seeded-shuffle.ts` and the shuffle/split module bundled with `import-zip.ts`),
the frame quality scorers (`brightness.ts`, the motion-score module), and the
unified detection gate (`UnifiedDetectionService`).

Modelling conventions:
* JavaScript 32-bit integer operations are modelled on `Nat` with explicit
  `% 2 ^ 32`.  JS bitwise operators (`^ | >>> & imul`) coerce to 32-bit
  integers; signed vs unsigned interpretation never changes the resulting
  bit pattern, so the unsigned representative is used throughout.
* JS `number` quantities that are not bit-twiddled (ratios, timestamps, scores,
  pixel sums) are modelled as `ℚ`.  `Math.floor` becomes `Int.floor`.
* `prng() * (i + 1)` with `prng()` returning `t / 2^32` (`t < 2^32`) satisfies
  `Math.floor (t / 2^32 * k) = t * k / 2^32` (integer division), which is the
  form used in the shuffle models.
* Seed strings are modelled as their list of UTF-16 code units (`List Nat`),
  which is what `charCodeAt` iterates over.
-/

set_option maxRecDepth 4000

/-- ToUint32 of a non-negative JS number: reduce mod `2 ^ 32`. -/
def toU32 (a : Nat) : Nat := a % 2 ^ 32

/-- `Math.imul` on unsigned 32-bit representatives: multiply mod `2 ^ 32`. -/
def imul32 (a b : Nat) : Nat := a * b % 2 ^ 32

/-- JS array element swap `[out[i], out[j]] = [out[j], out[i]]`: both elements
are read before either write.  Out-of-range indices leave the list unchanged
(the shuffle loops below only produce in-range indices). -/
def listSwap {α : Type} (l : List α) (i j : Nat) : List α :=
  match l[i]?, l[j]? with
  | some a, some b => (l.set i b).set j a
  | _, _ => l

/-- The Fisher–Yates loop shared by both shuffle modules:
`for (let i = len - 1; i > 0; i--) { j = floor(prng() * (i+1)); swap(i, j) }`.
`next` is the module's PRNG step (state `Nat` in, drawn 32-bit numerator and
new state out); the fuel argument is the current loop index `i`. -/
def fisherYatesAux {α : Type} (next : Nat → Nat × Nat) : Nat → Nat → List α → List α
  | 0, _, out => out
  | k + 1, st, out =>
    let r := (next st).1
    let j := r * (k + 2) / 2 ^ 32
    fisherYatesAux next k (next st).2 (listSwap out (k + 1) j)

/-- JS `Array.prototype.slice` index normalization: negative indices count from
the end, and indices clamp to `[0, length]`. -/
def jsStart (len : Nat) (i : Int) : Nat :=
  if i < 0 then ((len : Int) + i).toNat else min i.toNat len

/-- JS `l.slice(a, b)`. -/
def jsSlice {α : Type} (l : List α) (a b : Int) : List α :=
  (l.take (jsStart l.length b)).drop (jsStart l.length a)

/-- JS `l.slice(a)` (to the end). -/
def jsSliceFrom {α : Type} (l : List α) (a : Int) : List α :=
  l.drop (jsStart l.length a)

/-- Result record of both `createSplitIndices` implementations. -/
structure SplitResult where
  train : List Nat
  val : List Nat
  test : List Nat
deriving DecidableEq, Repr

namespace ImportZip

/-!
The shuffle/split module bundled with `import-zip.ts`
(`mulberry32`, `makePrngFromSeed`, `seededShuffle`, `createSplitIndices`).
-/

/-- One draw of the module's `mulberry32` closure.  The closure variable `seed`
is advanced by `0x6d2b79f5` without a 32-bit coercion (the bitwise operators
coerce on read), so the state is carried as an exact natural number, matching
JS doubles up to 2^53. -/
def mulberry32Next (seed : Nat) : Nat × Nat :=
  let s := seed + 0x6d2b79f5
  let t0 := toU32 s
  let t1 := imul32 (t0 ^^^ (t0 >>> 15)) (t0 ||| 1)
  let t2 := t1 ^^^ toU32 (t1 + imul32 (t1 ^^^ (t1 >>> 7)) (t1 ||| 61))
  (t2 ^^^ (t2 >>> 14), s)

/-- `makePrngFromSeed`'s string hash: FNV-1a
(`h = 2166136261 >>> 0; h ^= c; h = Math.imul(h, 16777619)`). -/
def fnv1a (seed : List Nat) : Nat :=
  seed.foldl (fun h c => imul32 (h ^^^ c) 16777619) 2166136261

/-- `seededShuffle(arr, seed)`: copy the array, then Fisher–Yates driven by
`makePrngFromSeed(seed)` = mulberry32 seeded with the FNV-1a hash. -/
def seededShuffle {α : Type} (arr : List α) (seed : List Nat) : List α :=
  fisherYatesAux mulberry32Next (arr.length - 1) (fnv1a seed) arr

/-- `Partial<SplitRatios>`: each field may be absent. -/
structure PartialSplitRatios where
  train : Option ℚ
  val : Option ℚ
  test : Option ℚ
deriving DecidableEq, Repr

/-- The `??` defaulting of `createSplitIndices`: absent fields become
0.7 / 0.15 / 0.15. -/
def resolveRatios (r : PartialSplitRatios) : ℚ × ℚ × ℚ :=
  (r.train.getD (7 / 10), r.val.getD (3 / 20), r.test.getD (3 / 20))

/-- The renormalization step of `createSplitIndices`:
`if (Math.abs(total - 1) > 1e-6) { r.train /= total; r.val /= total; r.test /= total }`.
(When `total = 0` the JS division yields NaN; downstream, `slice` treats the
NaN counts like 0, which coincides with `ℚ`'s division-by-zero convention.) -/
def normalizeRatios (r : ℚ × ℚ × ℚ) : ℚ × ℚ × ℚ :=
  let total := r.1 + r.2.1 + r.2.2
  if 1 / 1000000 < |total - 1| then (r.1 / total, r.2.1 / total, r.2.2 / total) else r

/-- `createSplitIndices(n, ratios, seed)` of the import-zip module: resolve and
renormalize the ratios, shuffle `[0..n)`, floor the train/val counts, clamp
negatives to 0, and slice (the computed `testCount` is never used by the
slicing; `test` is simply the remainder slice). -/
def createSplitIndices (n : Nat) (ratios : PartialSplitRatios) (seed : List Nat) :
    SplitResult :=
  let r := normalizeRatios (resolveRatios ratios)
  let shuffled := seededShuffle (List.range n) seed
  let trainCount0 : Int := ⌊(n : ℚ) * r.1⌋
  let valCount0 : Int := ⌊(n : ℚ) * r.2.1⌋
  let trainCount := if trainCount0 < 0 then 0 else trainCount0
  let valCount := if valCount0 < 0 then 0 else valCount0
  ⟨jsSlice shuffled 0 trainCount,
   jsSlice shuffled trainCount (trainCount + valCount),
   jsSliceFrom shuffled (trainCount + valCount)⟩

end ImportZip

namespace SeededShuffle

/-!
`seeded-shuffle.ts`: class `SeededRNG` plus `seededShuffle` and
`createSplitIndices`.
-/

/-- The `SeededRNG` constructor's string hash.  On 32-bit integers
`((hash << 5) - hash) + char` is `31 * hash + char (mod 2^32)`; the final
`Math.abs` takes the absolute value of the signed 32-bit result. -/
def seededRNGInit (seed : List Nat) : Nat :=
  let b := seed.foldl (fun h c => toU32 (31 * h + c)) 0
  if b < 2 ^ 31 then b else 2 ^ 32 - b

/-- `SeededRNG.next()`: the seed is coerced to 32 bits on every store (`|0`),
then a mulberry32 step is taken. -/
def seededRNGNext (seed : Nat) : Nat × Nat :=
  let s := toU32 (seed + 0x6D2B79F5)
  let t1 := imul32 (s ^^^ (s >>> 15)) (1 ||| s)
  let t2 := toU32 (t1 + imul32 (t1 ^^^ (t1 >>> 7)) (61 ||| t1)) ^^^ t1
  (t2 ^^^ (t2 >>> 14), s)

/-- `seededShuffle(array, seed)` of `seeded-shuffle.ts`: copy, then
Fisher–Yates with `rng.nextInt(0, i) = floor(rng.next() * (i + 1))`. -/
def seededShuffle {α : Type} (arr : List α) (seed : List Nat) : List α :=
  fisherYatesAux seededRNGNext (arr.length - 1) (seededRNGInit seed) arr

/-- The (total) split-ratio record of `seeded-shuffle.ts`. -/
structure SplitRatios where
  train : ℚ
  val : ℚ
  test : ℚ
deriving DecidableEq, Repr

/-- `createSplitIndices(totalSize, splits, seed)` of `seeded-shuffle.ts`:
shuffle `[0..n)` and slice by the floored sizes.  There is no renormalization
and no clamping; `testSize` is computed in the source but unused by the
slicing. -/
def createSplitIndices (totalSize : Nat) (splits : SplitRatios) (seed : List Nat) :
    SplitResult :=
  let shuffled := seededShuffle (List.range totalSize) seed
  let trainSize : Int := ⌊(totalSize : ℚ) * splits.train⌋
  let valSize : Int := ⌊(totalSize : ℚ) * splits.val⌋
  ⟨jsSlice shuffled 0 trainSize,
   jsSlice shuffled trainSize (trainSize + valSize),
   jsSliceFrom shuffled (trainSize + valSize)⟩

end SeededShuffle

/-- FNV-1a hashing scheme exactly as the spec words it, for the refinement
comparison of claim C2: initial value `0x811c9dc5`, then for each character
`h = (h XOR charCode) * 0x01000193 mod 2^32`. -/
def fnv1aSpecStep : Nat → List Nat → Nat
  | h, [] => h
  | h, c :: rest => fnv1aSpecStep ((h ^^^ c) * 0x01000193 % 2 ^ 32) rest

/-- The spec's seed hash: fold `fnv1aSpecStep` from the FNV offset basis. -/
def fnv1aSpec (seed : List Nat) : Nat := fnv1aSpecStep 0x811c9dc5 seed

namespace Quality

/-!
Quality scorers: `computeBrightness` (`brightness.ts`), `computeBlurVar`
(the Laplacian-variance module), `computeMotionScore` (the motion module).
`ImageData` is modelled with its pixel buffer as a list of RGBA quadruples
(bytes); real `ImageData` always has `data.length = 4 * width * height`, and
comparisons of `data.length` below are comparisons of the pixel count, which
differ from the byte count by the constant factor 4.
-/

/-- Model of a DOM `ImageData`. -/
structure ImageData where
  width : Nat
  height : Nat
  data : List (Nat × Nat × Nat × Nat)
deriving DecidableEq, Repr

/-- BT.601 luma of one RGBA pixel: `0.299 R + 0.587 G + 0.114 B`. -/
def luma (p : Nat × Nat × Nat × Nat) : ℚ :=
  299 / 1000 * p.1 + 587 / 1000 * p.2.1 + 114 / 1000 * p.2.2.1

/-- `computeBrightness`: 0 for an empty buffer, else the mean luma
(`sum / (data.length / 4)`, i.e. the sum over pixels divided by the pixel
count). -/
def computeBrightness (img : ImageData) : ℚ :=
  if img.data.length = 0 then 0
  else (img.data.map luma).sum / (img.data.length : ℚ)

/-- The grayscale buffer of `computeBlurVar`: a `Float32Array(width * height)`
is zero-initialized and filled with the luma of each pixel of `data`; reads
beyond the filled range return the initial 0. -/
def grayAt (img : ImageData) (k : Nat) : ℚ :=
  match img.data[k]? with
  | some p => luma p
  | none => 0

/-- The inner accumulation of `computeBlurVar`: running `(sum, sumSq)` of the
4-neighbour Laplacian `-4c + n + s + w + e` over the interior pixels
`1 ≤ x ≤ width - 2`, `1 ≤ y ≤ height - 2`. -/
def lapSums (img : ImageData) : ℚ × ℚ :=
  (List.range (img.height - 2)).foldl (fun acc dy =>
    (List.range (img.width - 2)).foldl (fun acc2 dx =>
      let y := dy + 1
      let x := dx + 1
      let idx := y * img.width + x
      let c := grayAt img idx
      let nn := grayAt img (idx - img.width)
      let ss := grayAt img (idx + img.width)
      let ww := grayAt img (idx - 1)
      let ee := grayAt img (idx + 1)
      let lap := -4 * c + nn + ss + ww + ee
      (acc2.1 + lap, acc2.2 + lap * lap)) acc) (0, 0)

/-- `computeBlurVar`: 0 for a zero-area frame; Laplacian response over the
interior, `n = (width - 2) * (height - 2)` (signed; `n ≤ 0` returns 0),
variance `sumSq / n - mean²`, with negative variance clamped to 0. -/
def computeBlurVar (img : ImageData) : ℚ :=
  if img.width * img.height = 0 then 0
  else
    let sums := lapSums img
    let nInterior : Int := ((img.width : Int) - 2) * ((img.height : Int) - 2)
    if nInterior ≤ 0 then 0
    else
      let mean := sums.1 / (nInterior : ℚ)
      let variance := sums.2 / (nInterior : ℚ) - mean * mean
      if 0 < variance then variance else 0

/-- `computeMotionScore(prev, curr)`: 0 on any dimension or buffer-length
mismatch, else the summed absolute luma difference normalized by
`pixels * 255`, capped at 1.  (For two equal-size empty frames the JS code
divides 0 by 0, yielding NaN; the `ℚ` convention 0/0 = 0 applies here and no
claim touches that case.) -/
def computeMotionScore (prev curr : ImageData) : ℚ :=
  if prev.width ≠ curr.width ∨ prev.height ≠ curr.height ∨
      prev.data.length ≠ curr.data.length then 0
  else
    let acc := ((prev.data.zip curr.data).map
      (fun pc => |luma pc.1 - luma pc.2|)).sum
    min 1 (acc / ((prev.data.length : ℚ) * 255))

end Quality

namespace Gate

/-!
The detection gate: `UnifiedDetectionService.updateDetectionState` together
with `isStable` / `isBoxStable` (and `HandDetectionService.isHandStable`).
The `DETECT` configuration constants are threaded as an explicit record whose
default instance carries the source's values from `config/app.ts`.
-/

inductive DetState where
  | SEARCHING | LOCK_FACE | LOCK_HAND | LOCK_BOTH | STABLE | CAPTURE | COOLDOWN
deriving DecidableEq, Repr

/-- A detection bounding box (source-frame pixel coordinates plus score). -/
structure Box where
  x : ℚ
  y : ℚ
  w : ℚ
  h : ℚ
  score : ℚ
deriving DecidableEq, Repr

/-- A hand detection (only the box is consulted by the gate). -/
structure HandDetection where
  box : Box
deriving DecidableEq, Repr

/-- A face detection: box plus top-level score. -/
structure FaceDetection where
  box : Box
  score : ℚ
deriving DecidableEq, Repr

/-- The `DETECT` configuration record (`config/app.ts`). -/
structure DetectConfig where
  pollMs : ℚ
  scoreFace : ℚ
  scoreHand : ℚ
  movePxMax : ℚ
  stabilityMs : ℚ
  autoCaptureDelayMs : ℚ
  cooldownMs : ℚ
  requireFaceForCapture : Bool
deriving DecidableEq, Repr

/-- The shipped `DETECT` constants. -/
def DETECT : DetectConfig :=
  { pollMs := 100
    scoreFace := 9 / 10
    scoreHand := 85 / 100
    movePxMax := 10
    stabilityMs := 300
    autoCaptureDelayMs := 2000
    cooldownMs := 1500
    requireFaceForCapture := true }

/-- The `UnifiedDetection` record mutated by the service. -/
structure UnifiedDetection where
  face : Option FaceDetection
  hand : Option HandDetection
  state : DetState
  stableStartTime : ℚ
  countdownStartTime : ℚ
  lastCaptureTime : ℚ
deriving DecidableEq, Repr

/-- The service's mutable state: current `detection` plus `lastDetection`
(null before the first update). -/
structure GateState where
  detection : UnifiedDetection
  lastDetection : Option UnifiedDetection
deriving DecidableEq, Repr

/-- The service's initial state. -/
def initGateState : GateState :=
  ⟨⟨none, none, .SEARCHING, 0, 0, 0⟩, none⟩

/-- One polled frame's input to the gate: primary hand, primary face, and the
`performance.now()` timestamp. -/
structure DetInput where
  hand : Option HandDetection
  face : Option FaceDetection
  t : ℚ
deriving DecidableEq, Repr

/-- `HandDetectionService.isHandStable`: false when either detection is null,
else both top-left deltas strictly below the threshold. -/
def isHandStable (current previous : Option HandDetection) (threshold : ℚ) : Bool :=
  match current, previous with
  | some c, some p =>
    decide (|c.box.x - p.box.x| < threshold) && decide (|c.box.y - p.box.y| < threshold)
  | _, _ => false

/-- `isBoxStable`: both top-left deltas strictly below the threshold. -/
def isBoxStable (current previous : Box) (threshold : ℚ) : Bool :=
  decide (|current.x - previous.x| < threshold) && decide (|current.y - previous.y| < threshold)

/-- `isStable`: a modality with a missing current or previous detection is
vacuously stable (`!cur || !prev || boxCheck`). -/
def isStable (cfg : DetectConfig) (hand : Option HandDetection)
    (face : Option FaceDetection) (prevHand : Option HandDetection)
    (prevFace : Option FaceDetection) : Bool :=
  let handStable := hand.isNone || prevHand.isNone ||
    isHandStable hand prevHand cfg.movePxMax
  let faceStable :=
    match face, prevFace with
    | some f, some pf => isBoxStable f.box pf.box cfg.movePxMax
    | _, _ => true
  handStable && faceStable

/-- `updateDetectionState(hand, face, timestamp)`: the full switch of the
source, acting on the current detection record; afterwards `lastDetection`
becomes a copy of the updated record. -/
def updateDetectionState (cfg : DetectConfig) (s : GateState) (inp : DetInput) :
    GateState :=
  let prevHand := match s.lastDetection with | none => none | some p => p.hand
  let prevFace := match s.lastDetection with | none => none | some p => p.face
  let d0 : UnifiedDetection := { s.detection with face := inp.face, hand := inp.hand }
  let hasValidFace := inp.face.any (fun f => decide (cfg.scoreFace ≤ f.score))
  let hasValidHand := inp.hand.any (fun hd => decide (cfg.scoreHand ≤ hd.box.score))
  let requireFace := cfg.requireFaceForCapture
  let stableNow := isStable cfg inp.hand inp.face prevHand prevFace
  let d1 : UnifiedDetection :=
    match d0.state with
    | .SEARCHING =>
      if hasValidFace && !hasValidHand then { d0 with state := .LOCK_FACE }
      else if !hasValidFace && hasValidHand then { d0 with state := .LOCK_HAND }
      else if hasValidFace && hasValidHand then { d0 with state := .LOCK_BOTH }
      else d0
    | .LOCK_FACE =>
      if hasValidHand then { d0 with state := .LOCK_BOTH }
      else if !hasValidFace then { d0 with state := .SEARCHING }
      else d0
    | .LOCK_HAND =>
      if hasValidFace then { d0 with state := .LOCK_BOTH }
      else if !hasValidHand then { d0 with state := .SEARCHING }
      else if !requireFace then
        if stableNow then
          if d0.stableStartTime = 0 then { d0 with stableStartTime := inp.t }
          else if cfg.stabilityMs ≤ inp.t - d0.stableStartTime then
            { d0 with state := .STABLE }
          else d0
        else { d0 with stableStartTime := 0 }
      else d0
    | .LOCK_BOTH =>
      let validDetections := if requireFace then hasValidFace && hasValidHand else hasValidHand
      if !validDetections then { d0 with state := .SEARCHING, stableStartTime := 0 }
      else if stableNow then
        if d0.stableStartTime = 0 then { d0 with stableStartTime := inp.t }
        else if cfg.stabilityMs ≤ inp.t - d0.stableStartTime then
          { d0 with state := .STABLE }
        else d0
      else { d0 with stableStartTime := 0 }
    | .STABLE =>
      let stillValid := if requireFace then hasValidFace && hasValidHand else hasValidHand
      if !stillValid || !stableNow then
        { d0 with state := .LOCK_BOTH, stableStartTime := 0, countdownStartTime := 0 }
      else if d0.countdownStartTime = 0 then { d0 with countdownStartTime := inp.t }
      else if cfg.autoCaptureDelayMs ≤ inp.t - d0.countdownStartTime then
        { d0 with state := .CAPTURE, lastCaptureTime := inp.t }
      else d0
    | .CAPTURE =>
      { d0 with state := .COOLDOWN, stableStartTime := 0, countdownStartTime := 0 }
    | .COOLDOWN =>
      if cfg.cooldownMs ≤ inp.t - d0.lastCaptureTime then { d0 with state := .SEARCHING }
      else d0
  ⟨d1, some d1⟩

/-- Run the gate over a list of polled inputs. -/
def runGate (cfg : DetectConfig) (s : GateState) (inputs : List DetInput) : GateState :=
  inputs.foldl (updateDetectionState cfg) s

/-- The state trace of a run (initial state included). -/
def gateTrace (cfg : DetectConfig) : GateState → List DetInput → List GateState
  | s, [] => [s]
  | s, inp :: rest => s :: gateTrace cfg (updateDetectionState cfg s inp) rest

/-- The timestamps at which a run enters the CAPTURE state.  The only
transition into CAPTURE is STABLE → CAPTURE (an update in state CAPTURE always
moves to COOLDOWN), so an update whose result is in state CAPTURE is exactly
an entry into CAPTURE. -/
def captures (cfg : DetectConfig) : GateState → List DetInput → List ℚ
  | _, [] => []
  | s, inp :: rest =>
    let s' := updateDetectionState cfg s inp
    (if s'.detection.state = .CAPTURE then [inp.t] else []) ++ captures cfg s' rest

end Gate

/-- The properties claim C1 asks of a three-way split, all derived from the
concatenation being a permutation of `range n`. -/
def PartitionSpec (n : Nat) (p : SplitResult) : Prop :=
  (p.train ++ p.val ++ p.test).Perm (List.range n) ∧
  p.train.Nodup ∧ p.val.Nodup ∧ p.test.Nodup ∧
  p.train.Disjoint p.val ∧ p.train.Disjoint p.test ∧ p.val.Disjoint p.test ∧
  (∀ i, (i ∈ p.train ∨ i ∈ p.val ∨ i ∈ p.test) ↔ i < n) ∧
  p.train.length + p.val.length + p.test.length = n

namespace Gate

/-- The inductive invariant carried along a gate run for claim C3:
`τ` is the timestamp of the most recently processed input (0 before any).
The gate's `lastCaptureTime` never exceeds `τ`, and whenever the gate sits in
one of the five pre-capture states, either no capture has been recorded
(`lastCaptureTime = 0`) or the full cooldown window has already elapsed by
time `τ`. -/
def GateInv (cfg : DetectConfig) (s : GateState) (τ : ℚ) : Prop :=
  s.detection.lastCaptureTime ≤ τ ∧
  (s.detection.state ≠ .CAPTURE → s.detection.state ≠ .COOLDOWN →
    (s.detection.lastCaptureTime = 0 ∨
      s.detection.lastCaptureTime + cfg.cooldownMs ≤ τ))

/-- A fixed in-threshold hand detection used by the concrete scenario runs
(score 0.9 ≥ 0.85). -/
def sampleHand : HandDetection := ⟨⟨100, 100, 50, 50, 9 / 10⟩⟩

/-- A fixed in-threshold face detection used by the concrete scenario runs
(score 0.95 ≥ 0.9). -/
def sampleFace : FaceDetection := ⟨⟨200, 200, 80, 80, 95 / 100⟩, 95 / 100⟩

/-- A polled frame carrying both valid detections (identical boxes from tick
to tick, hence stable) at time `t`. -/
def validInput (t : ℚ) : DetInput := ⟨some sampleHand, some sampleFace, t⟩

/-- `k` consecutive valid, stable polls at the configured 100 ms interval:
timestamps 100, 200, ..., 100·k. -/
def validFeed (k : Nat) : List DetInput :=
  (List.range k).map (fun (i : Nat) => validInput (100 * ((i : ℚ) + 1)))

/-- The `DETECT` configuration with the runtime flag
`REQUIRE_FACE_FOR_CAPTURE` turned off (hand-only capture allowed). -/
def noFaceConfig : DetectConfig := { DETECT with requireFaceForCapture := false }

/-- A polled frame with a valid hand and no face at time `t`. -/
def handOnlyInput (t : ℚ) : DetInput := ⟨some sampleHand, none, t⟩

/-- A polled frame with no detections at time `t`. -/
def emptyInput (t : ℚ) : DetInput := ⟨none, none, t⟩

end Gate

section MainTheorems

/- `Rat.add`/`Rat.mul`/`Rat.sub`/`Rat.inv` are `@[irreducible]` in core, which
blocks `decide`-style evaluation of the executable models on concrete
rationals; they are restored to `semireducible` for the proofs below. -/
attribute [local semireducible] Rat.add Rat.mul Rat.sub Rat.inv

/-! ## Shuffle permutation lemmas -/

theorem cons_set_perm {α : Type} :
    ∀ (xs : List α) (m : Nat) (x b : α), xs[m]? = some b →
      (b :: xs.set m x).Perm (x :: xs) := by
  intro xs
  induction xs with
  | nil => intro m x b h; simp at h
  | cons y ys ih =>
    intro m x b h
    cases m with
    | zero =>
      simp only [List.getElem?_cons_zero, Option.some.injEq] at h
      subst h
      simpa using List.Perm.swap x y ys
    | succ m =>
      simp only [List.getElem?_cons_succ] at h
      have h1 : (b :: y :: ys.set m x).Perm (y :: b :: ys.set m x) :=
        List.Perm.swap y b _
      have h2 : (y :: b :: ys.set m x).Perm (y :: x :: ys) :=
        List.Perm.cons y (ih m x b h)
      have h3 : (y :: x :: ys).Perm (x :: y :: ys) := List.Perm.swap x y ys
      simpa using (h1.trans h2).trans h3

theorem set_set_perm {α : Type} :
    ∀ (l : List α) (i j : Nat) (a b : α), l[i]? = some a → l[j]? = some b →
      ((l.set i b).set j a).Perm l := by
  intro l
  induction l with
  | nil => intro i j a b hi _; simp at hi
  | cons x xs ih =>
    intro i j a b hi hj
    cases i with
    | zero =>
      simp only [List.getElem?_cons_zero, Option.some.injEq] at hi
      subst hi
      cases j with
      | zero => simp
      | succ m =>
        simp only [List.getElem?_cons_succ] at hj
        simp only [List.set_cons_zero, List.set_cons_succ]
        exact cons_set_perm xs m x b hj
    | succ m =>
      cases j with
      | zero =>
        simp only [List.getElem?_cons_succ] at hi
        simp only [List.getElem?_cons_zero, Option.some.injEq] at hj
        subst hj
        simp only [List.set_cons_succ, List.set_cons_zero]
        exact cons_set_perm xs m x a hi
      | succ k =>
        simp only [List.getElem?_cons_succ] at hi hj
        simp only [List.set_cons_succ]
        exact List.Perm.cons x (ih m k a b hi hj)

theorem listSwap_perm {α : Type} (l : List α) (i j : Nat) : (listSwap l i j).Perm l := by
  unfold listSwap
  cases hi : l[i]? with
  | none => cases l[j]? <;> exact List.Perm.refl l
  | some a =>
    cases hj : l[j]? with
    | none => exact List.Perm.refl l
    | some b => exact set_set_perm l i j a b hi hj

theorem fisherYatesAux_perm {α : Type} (next : Nat → Nat × Nat) :
    ∀ (k st : Nat) (out : List α), (fisherYatesAux next k st out).Perm out := by
  intro k
  induction k with
  | zero => intro st out; exact List.Perm.refl out
  | succ k ih =>
    intro st out
    rw [fisherYatesAux]
    exact (ih _ _).trans (listSwap_perm _ _ _)

theorem importZip_seededShuffle_perm {α : Type} (arr : List α) (seed : List Nat) :
    (ImportZip.seededShuffle arr seed).Perm arr :=
  fisherYatesAux_perm _ _ _ _

theorem seededShuffle_seededShuffle_perm {α : Type} (arr : List α) (seed : List Nat) :
    (SeededShuffle.seededShuffle arr seed).Perm arr :=
  fisherYatesAux_perm _ _ _ _

/-! ## Slice decomposition lemmas -/

theorem jsStart_nonneg (len : Nat) (a : Int) (ha : 0 ≤ a) :
    jsStart len a = min a.toNat len := by
  unfold jsStart
  rw [if_neg (by omega)]

theorem slice3_append {α : Type} (l : List α) (a b : Int) (ha : 0 ≤ a) (hab : a ≤ b) :
    jsSlice l 0 a ++ jsSlice l a b ++ jsSliceFrom l b = l := by
  unfold jsSlice jsSliceFrom
  rw [jsStart_nonneg _ _ ha, jsStart_nonneg _ _ (le_trans ha hab),
    jsStart_nonneg _ _ le_rfl]
  set A := min a.toNat l.length with hA
  set B := min b.toNat l.length with hB
  have hAB : A ≤ B := by
    have := Int.toNat_le_toNat hab
    omega
  have h0 : min (0 : Int).toNat l.length = 0 := by simp
  rw [h0, List.drop_zero, List.append_assoc]
  have htake : l.take A = (l.take B).take A := by
    rw [List.take_take, min_eq_left hAB]
  calc l.take A ++ ((l.take B).drop A ++ l.drop B)
      = (l.take B).take A ++ ((l.take B).drop A ++ l.drop B) := by rw [← htake]
    _ = ((l.take B).take A ++ (l.take B).drop A) ++ l.drop B := by
        rw [List.append_assoc]
    _ = l.take B ++ l.drop B := by rw [List.take_append_drop]
    _ = l := List.take_append_drop B l

theorem partitionSpec_of_perm {n : Nat} {p : SplitResult}
    (hperm : (p.train ++ p.val ++ p.test).Perm (List.range n)) : PartitionSpec n p := by
  have hnodup : (p.train ++ p.val ++ p.test).Nodup :=
    hperm.symm.nodup (List.nodup_range n)
  rw [List.append_assoc, List.nodup_append] at hnodup
  obtain ⟨h1, h2, h12⟩ := hnodup
  rw [List.nodup_append] at h2
  obtain ⟨h2v, h2t, hvt⟩ := h2
  rw [List.disjoint_append_right] at h12
  refine ⟨hperm, h1, h2v, h2t, h12.1, h12.2, hvt, ?_, ?_⟩
  · intro i
    have := hperm.mem_iff (a := i)
    simp only [List.mem_append, List.mem_range] at this
    tauto
  · have := hperm.length_eq
    simp only [List.length_append, List.length_range] at this
    omega

theorem seededShuffle_partition_spec (n : Nat) (rt rv rte : ℚ) (seed : List Nat)
    (h1 : 0 ≤ rt) (h2 : 0 ≤ rv) :
    PartitionSpec n (SeededShuffle.createSplitIndices n ⟨rt, rv, rte⟩ seed) := by
  apply partitionSpec_of_perm
  unfold SeededShuffle.createSplitIndices
  have ha : (0 : Int) ≤ ⌊(n : ℚ) * rt⌋ :=
    Int.floor_nonneg.mpr (mul_nonneg (by positivity) h1)
  have hb : ⌊(n : ℚ) * rt⌋ ≤ ⌊(n : ℚ) * rt⌋ + ⌊(n : ℚ) * rv⌋ := by
    have : (0 : Int) ≤ ⌊(n : ℚ) * rv⌋ :=
      Int.floor_nonneg.mpr (mul_nonneg (by positivity) h2)
    omega
  rw [slice3_append _ _ _ ha hb]
  exact seededShuffle_seededShuffle_perm _ _

theorem importZip_partition_spec (n : Nat) (ratios : ImportZip.PartialSplitRatios)
    (seed : List Nat) :
    PartitionSpec n (ImportZip.createSplitIndices n ratios seed) := by
  apply partitionSpec_of_perm
  unfold ImportZip.createSplitIndices
  set r := ImportZip.normalizeRatios (ImportZip.resolveRatios ratios)
  set tc0 : Int := ⌊(n : ℚ) * r.1⌋
  set vc0 : Int := ⌊(n : ℚ) * r.2.1⌋
  set tc : Int := if tc0 < 0 then 0 else tc0 with htc
  set vc : Int := if vc0 < 0 then 0 else vc0 with hvc
  have ha : (0 : Int) ≤ tc := by rw [htc]; split <;> omega
  have hb : tc ≤ tc + vc := by
    have : (0 : Int) ≤ vc := by rw [hvc]; split <;> omega
    omega
  rw [slice3_append _ _ _ ha hb]
  exact importZip_seededShuffle_perm _ _

/-! ## Ratio renormalization lemmas (import-zip module) -/

theorem normalizeRatios_scale (c rt rv rte : ℚ) (hc : 0 < c)
    (h1 : rt + rv + rte = 1 ∨ 1 / 1000000 < |rt + rv + rte - 1|)
    (h2 : c * (rt + rv + rte) = 1 ∨ 1 / 1000000 < |c * (rt + rv + rte) - 1|) :
    ImportZip.normalizeRatios (c * rt, c * rv, c * rte) =
      ImportZip.normalizeRatios (rt, rv, rte) := by
  have hc0 : c ≠ 0 := ne_of_gt hc
  have hsum : c * rt + c * rv + c * rte = c * (rt + rv + rte) := by ring
  show (if 1 / 1000000 < |c * rt + c * rv + c * rte - 1| then _ else _) =
    (if 1 / 1000000 < |rt + rv + rte - 1| then _ else _)
  rw [hsum]
  by_cases hA : 1 / 1000000 < |c * (rt + rv + rte) - 1| <;>
    by_cases hB : 1 / 1000000 < |rt + rv + rte - 1|
  · rw [if_pos hA, if_pos hB]
    refine Prod.ext ?_ (Prod.ext ?_ ?_) <;> simp only [] <;>
      exact mul_div_mul_left _ _ hc0
  · have hs1 : rt + rv + rte = 1 := h1.resolve_right hB
    rw [if_pos hA, if_neg hB, hs1]
    refine Prod.ext ?_ (Prod.ext ?_ ?_) <;> simp only [] <;>
      rw [mul_div_mul_left _ _ hc0, div_one]
  · have hcs1 : c * (rt + rv + rte) = 1 := h2.resolve_right hA
    have hs0 : rt + rv + rte ≠ 0 := by
      intro h
      rw [h, mul_zero] at hcs1
      exact zero_ne_one hcs1
    have hcinv : c = (rt + rv + rte)⁻¹ := by
      field_simp
      linarith [hcs1]
    rw [if_neg hA, if_pos hB]
    refine Prod.ext ?_ (Prod.ext ?_ ?_) <;> simp only [] <;>
      rw [hcinv, div_eq_mul_inv, mul_comm]
  · have hs1 : rt + rv + rte = 1 := h1.resolve_right hB
    have hcs1 : c * (rt + rv + rte) = 1 := h2.resolve_right hA
    have hc1 : c = 1 := by rw [hs1, mul_one] at hcs1; exact hcs1
    rw [if_neg hA, if_neg hB, hc1]
    simp

/-! ## FNV-1a refinement lemma -/

theorem fnv1a_foldl_eq_spec :
    ∀ (l : List Nat) (h : Nat),
      List.foldl (fun h c => imul32 (h ^^^ c) 16777619) h l = fnv1aSpecStep h l := by
  intro l
  induction l with
  | nil => intro h; rfl
  | cons c rest ih => intro h; exact ih _

/-! ## Claim theorems: splitter -/

/-- Claim C1: for every n ≥ 0, every ratio triple with non-negative components,
and every seed string, the partition result's train, val and test index lists
are pairwise disjoint, contain no duplicates, their union is exactly
{0, ..., n-1}, and |train| + |val| + |test| = n.  Stated for both
`createSplitIndices` implementations (`seeded-shuffle.ts` and the import-zip
module). -/
theorem claim_C1_partition_completeness (n : Nat) (rt rv rte : ℚ) (seed : List Nat)
    (h1 : 0 ≤ rt) (h2 : 0 ≤ rv) (h3 : 0 ≤ rte) :
    PartitionSpec n (SeededShuffle.createSplitIndices n ⟨rt, rv, rte⟩ seed) ∧
    PartitionSpec n (ImportZip.createSplitIndices n ⟨some rt, some rv, some rte⟩ seed) :=
  ⟨seededShuffle_partition_spec n rt rv rte seed h1 h2,
   importZip_partition_spec n _ seed⟩

/-- Witness for C1 at n = 5, ratios (0.7, 0.15, 0.15), seed "abc". -/
theorem claim_C1_witness :
    (0 : ℚ) ≤ 7 / 10 ∧ (0 : ℚ) ≤ 3 / 20 ∧
    (PartitionSpec 5 (SeededShuffle.createSplitIndices 5 ⟨7 / 10, 3 / 20, 3 / 20⟩
        [97, 98, 99]) ∧
     PartitionSpec 5 (ImportZip.createSplitIndices 5
        ⟨some (7 / 10), some (3 / 20), some (3 / 20)⟩ [97, 98, 99])) :=
  ⟨by norm_num, by norm_num,
   claim_C1_partition_completeness 5 (7 / 10) (3 / 20) (3 / 20) [97, 98, 99]
     (by norm_num) (by norm_num) (by norm_num)⟩

/-- Claim C2 counterexample: the `SeededRNG` constructor of `seeded-shuffle.ts`
does not hash the seed with the FNV-1a scheme: on the seed "abc" it produces
96354 (the 31·h + c rolling hash) whereas FNV-1a produces 440920331. -/
theorem claim_C2_counterexample :
    SeededShuffle.seededRNGInit [97, 98, 99] ≠ fnv1aSpec [97, 98, 99] := by decide

/-- Claim C2 (amended): the import-zip module's `makePrngFromSeed` hashes the
seed with exactly the FNV-1a scheme of the spec (initial value 0x811c9dc5,
then h = (h XOR charCode) * 0x01000193 mod 2^32), and its `seededShuffle`
draws all of its randomness from the mulberry32 generator seeded with that
hash; the `SeededRNG` class of `seeded-shuffle.ts` uses a different
(31·h + charCode, absolute value) hash instead. -/
theorem claim_C2_amended_fnv1a :
    (∀ seed : List Nat, ImportZip.fnv1a seed = fnv1aSpec seed) ∧
    (∀ (seed arr : List Nat),
      ImportZip.seededShuffle arr seed =
        fisherYatesAux ImportZip.mulberry32Next (arr.length - 1) (fnv1aSpec seed) arr) := by
  constructor
  · intro seed
    exact fnv1a_foldl_eq_spec seed 2166136261
  · intro seed arr
    unfold ImportZip.seededShuffle
    rw [show ImportZip.fnv1a seed = fnv1aSpec seed from
      fnv1a_foldl_eq_spec seed 2166136261]

/-- Claim C7 counterexample: the `createSplitIndices` of `seeded-shuffle.ts`
does not renormalize; scaling the ratio triple (1/2, 1/2, 0) by the positive
factor 2 changes the result at n = 2. -/
theorem claim_C7_counterexample :
    SeededShuffle.createSplitIndices 2 ⟨1, 1, 0⟩ [97] ≠
      SeededShuffle.createSplitIndices 2 ⟨1 / 2, 1 / 2, 0⟩ [97] := by decide

/-- Claim C7 (amended): the `createSplitIndices` of `seeded-shuffle.ts` uses
the ratios exactly as given, with no renormalization; the import-zip
`createSplitIndices` renormalizes proportionally only when the ratio sum
differs from 1 by more than 1e-6, and for it scaling all three ratios by the
same positive factor leaves the partition result unchanged whenever the
original and the scaled sums each either equal 1 or lie outside that
tolerance. -/
theorem claim_C7_amended_scale_invariance (n : Nat) (seed : List Nat)
    (c rt rv rte : ℚ) (hc : 0 < c)
    (h1 : rt + rv + rte = 1 ∨ 1 / 1000000 < |rt + rv + rte - 1|)
    (h2 : c * (rt + rv + rte) = 1 ∨ 1 / 1000000 < |c * (rt + rv + rte) - 1|) :
    ImportZip.createSplitIndices n ⟨some (c * rt), some (c * rv), some (c * rte)⟩ seed =
      ImportZip.createSplitIndices n ⟨some rt, some rv, some rte⟩ seed := by
  unfold ImportZip.createSplitIndices
  rw [show ImportZip.resolveRatios ⟨some (c * rt), some (c * rv), some (c * rte)⟩ =
      (c * rt, c * rv, c * rte) from rfl,
    show ImportZip.resolveRatios ⟨some rt, some rv, some rte⟩ = (rt, rv, rte) from rfl,
    normalizeRatios_scale c rt rv rte hc h1 h2]

/-- Witness for C7 (amended) at n = 4, ratios (0.7, 0.15, 0.15), factor 2,
seed "a". -/
theorem claim_C7_witness :
    (0 : ℚ) < 2 ∧
    ((7 : ℚ) / 10 + 3 / 20 + 3 / 20 = 1 ∨
      1 / 1000000 < |(7 : ℚ) / 10 + 3 / 20 + 3 / 20 - 1|) ∧
    (2 * ((7 : ℚ) / 10 + 3 / 20 + 3 / 20) = 1 ∨
      1 / 1000000 < |2 * ((7 : ℚ) / 10 + 3 / 20 + 3 / 20) - 1|) ∧
    ImportZip.createSplitIndices 4
        ⟨some (2 * (7 / 10)), some (2 * (3 / 20)), some (2 * (3 / 20))⟩ [97] =
      ImportZip.createSplitIndices 4
        ⟨some (7 / 10), some (3 / 20), some (3 / 20)⟩ [97] :=
  ⟨by norm_num, by norm_num, by norm_num,
   claim_C7_amended_scale_invariance 4 [97] 2 (7 / 10) (3 / 20) (3 / 20)
     (by norm_num) (by norm_num) (by norm_num)⟩

/-- Claim C8: for every input array and every seed string, `seededShuffle`
returns a permutation of the input (same length, same multiset of elements).
Both implementations are pure functions of an explicit copy of the input
(`[...array]` / `arr.slice()`), so the input list itself is untouched, which
the embedding reflects by construction.  Stated for both modules. -/
theorem claim_C8_shuffle_perm (α : Type) (arr : List α) (seed : List Nat) :
    (ImportZip.seededShuffle arr seed).Perm arr ∧
    (ImportZip.seededShuffle arr seed).length = arr.length ∧
    (SeededShuffle.seededShuffle arr seed).Perm arr ∧
    (SeededShuffle.seededShuffle arr seed).length = arr.length :=
  ⟨importZip_seededShuffle_perm arr seed,
   (importZip_seededShuffle_perm arr seed).length_eq,
   seededShuffle_seededShuffle_perm arr seed,
   (seededShuffle_seededShuffle_perm arr seed).length_eq⟩

/-- Claim C10: partition(10, {train: 0.7, val: 0.15, test: 0.15}, "seedX")
yields |train| = 7, |val| = 1, |test| = 2 (floor semantics, remainder to
test).  Verified for both `createSplitIndices` implementations; "seedX" is
the code-unit list [115, 101, 101, 100, 88]. -/
theorem claim_C10_partition_sizes :
    ((SeededShuffle.createSplitIndices 10 ⟨7 / 10, 3 / 20, 3 / 20⟩
        [115, 101, 101, 100, 88]).train.length = 7 ∧
     (SeededShuffle.createSplitIndices 10 ⟨7 / 10, 3 / 20, 3 / 20⟩
        [115, 101, 101, 100, 88]).val.length = 1 ∧
     (SeededShuffle.createSplitIndices 10 ⟨7 / 10, 3 / 20, 3 / 20⟩
        [115, 101, 101, 100, 88]).test.length = 2) ∧
    ((ImportZip.createSplitIndices 10 ⟨some (7 / 10), some (3 / 20), some (3 / 20)⟩
        [115, 101, 101, 100, 88]).train.length = 7 ∧
     (ImportZip.createSplitIndices 10 ⟨some (7 / 10), some (3 / 20), some (3 / 20)⟩
        [115, 101, 101, 100, 88]).val.length = 1 ∧
     (ImportZip.createSplitIndices 10 ⟨some (7 / 10), some (3 / 20), some (3 / 20)⟩
        [115, 101, 101, 100, 88]).test.length = 2) := by decide

/-! ## Detection gate lemmas -/

namespace Gate

theorem gateInv_step (cfg : DetectConfig) (s : GateState) (inp : DetInput) (tau : ℚ)
    (hinv : GateInv cfg s tau) (htau : tau ≤ inp.t) :
    GateInv cfg (updateDetectionState cfg s inp) inp.t := by
  obtain ⟨hL, hF⟩ := hinv
  have ht2 : s.detection.lastCaptureTime ≤ inp.t := le_trans hL htau
  unfold GateInv
  unfold updateDetectionState
  cases hst : s.detection.state
  case COOLDOWN =>
    simp only [hst]
    split_ifs with hcd
    · exact ⟨ht2, fun h1 h2 => Or.inr (by linarith)⟩
    · exact ⟨ht2, fun h1 h2 => absurd rfl h2⟩
  all_goals
    simp only [hst]
  all_goals
    (try split_ifs) <;>
    refine ⟨?_, fun h1 h2 => ?_⟩ <;>
      first
        | exact ht2
        | exact le_refl _
        | exact absurd rfl h1
        | exact absurd rfl h2
        | exact (hF (by simp [hst]) (by simp [hst])).imp id (fun h => by linarith)

theorem step_lastCapture (cfg : DetectConfig) (s : GateState) (inp : DetInput) :
    ((updateDetectionState cfg s inp).detection.state = DetState.CAPTURE ∧
     (updateDetectionState cfg s inp).detection.lastCaptureTime = inp.t ∧
     s.detection.state = DetState.STABLE) ∨
    ((updateDetectionState cfg s inp).detection.state ≠ DetState.CAPTURE ∧
     (updateDetectionState cfg s inp).detection.lastCaptureTime =
       s.detection.lastCaptureTime) := by
  unfold updateDetectionState
  cases hst : s.detection.state <;>
    (dsimp only; rw [hst]; dsimp only) <;>
    (try split_ifs) <;>
      first
        | exact Or.inl ⟨rfl, rfl, rfl⟩
        | exact Or.inr ⟨by simp, rfl⟩

theorem captures_bound (cfg : DetectConfig) (hcd : 0 ≤ cfg.cooldownMs) :
    ∀ (inputs : List DetInput) (s : GateState) (tau : ℚ),
      GateInv cfg s tau →
      List.Chain (fun a b => a ≤ b) tau (inputs.map DetInput.t) →
      (∀ i ∈ inputs, 0 < i.t) →
      List.Pairwise (fun a b => a + cfg.cooldownMs ≤ b) (captures cfg s inputs) ∧
      (∀ u ∈ captures cfg s inputs,
        (s.detection.lastCaptureTime ≠ 0 →
          s.detection.lastCaptureTime + cfg.cooldownMs ≤ u) ∧ tau ≤ u) := by
  intro inputs
  induction inputs with
  | nil =>
    intro s tau _ _ _
    exact ⟨List.Pairwise.nil, fun u hu => absurd hu (by simp [captures])⟩
  | cons i rest ih =>
    intro s tau hinv hchain hpos
    rw [List.map_cons, List.chain_cons] at hchain
    obtain ⟨hti, hchain2⟩ := hchain
    have hposi : 0 < i.t := hpos i (List.mem_cons_self i rest)
    have hpos2 : ∀ j ∈ rest, 0 < j.t := fun j hj => hpos j (List.mem_cons_of_mem i hj)
    have hinv2 : GateInv cfg (updateDetectionState cfg s i) i.t :=
      gateInv_step cfg s i tau hinv hti
    obtain ⟨ihP, ihB⟩ := ih (updateDetectionState cfg s i) i.t hinv2 hchain2 hpos2
    rcases step_lastCapture cfg s i with ⟨hcap, hLt, hstable⟩ | ⟨hncap, hLeq⟩
    · have hcapeq : captures cfg s (i :: rest) =
          i.t :: captures cfg (updateDetectionState cfg s i) rest := by
        simp [captures, hcap]
      rw [hcapeq]
      have htail : ∀ u ∈ captures cfg (updateDetectionState cfg s i) rest,
          i.t + cfg.cooldownMs ≤ u := by
        intro u hu
        have h1 := (ihB u hu).1
        rw [hLt] at h1
        exact h1 (ne_of_gt hposi)
      obtain ⟨_, hF⟩ := hinv
      have hFs := hF (by simp [hstable]) (by simp [hstable])
      refine ⟨List.pairwise_cons.mpr ⟨htail, ihP⟩, ?_⟩
      intro u hu
      rcases List.mem_cons.mp hu with rfl | hu2
      · refine ⟨fun hL0 => ?_, hti⟩
        rcases hFs with h0 | hle
        · exact absurd h0 hL0
        · linarith
      · have h2 := ihB u hu2
        rw [hLt] at h2
        refine ⟨fun hL0 => ?_, le_trans hti h2.2⟩
        have h3 : i.t + cfg.cooldownMs ≤ u := h2.1 (ne_of_gt hposi)
        rcases hFs with h0 | hle
        · exact absurd h0 hL0
        · linarith
    · have hcapeq : captures cfg s (i :: rest) =
          captures cfg (updateDetectionState cfg s i) rest := by
        simp [captures, hncap]
      rw [hcapeq]
      refine ⟨ihP, ?_⟩
      intro u hu
      have h2 := ihB u hu
      rw [hLeq] at h2
      exact ⟨h2.1, le_trans hti h2.2⟩

end Gate

theorem validFeed_pos (k : Nat) : ∀ i ∈ Gate.validFeed k, 0 < i.t := by
  intro i hi
  simp only [Gate.validFeed, List.mem_map, List.mem_range] at hi
  obtain ⟨j, hj, rfl⟩ := hi
  show (0 : ℚ) < 100 * ((j : ℚ) + 1)
  have hj0 : (0 : ℚ) ≤ (j : ℚ) := Nat.cast_nonneg j
  linarith

theorem validFeed_mono (k : Nat) :
    List.Chain' (fun a b => a ≤ b) ((Gate.validFeed k).map Gate.DetInput.t) := by
  unfold Gate.validFeed
  rw [List.map_map]
  apply List.Pairwise.chain'
  rw [List.pairwise_map]
  refine (List.pairwise_lt_range k).imp ?_
  intro a b hab
  show (100 : ℚ) * ((a : ℚ) + 1) ≤ 100 * ((b : ℚ) + 1)
  have hc : (a : ℚ) ≤ (b : ℚ) := by exact_mod_cast le_of_lt hab
  linarith

/-! ## Claim theorems: detection gate and quality scorers -/

/-- Claim C3: for every configuration with a non-negative cooldown and every
run of gate updates with positive, non-decreasing timestamps and no
intervening reset, the timestamps at which the gate enters CAPTURE are
pairwise separated by at least `cooldownMs`: if it enters CAPTURE at `t1` and
again at a later `t2`, then `t1 + cooldownMs ≤ t2`, even if validity and
stability hold continuously in between. -/
theorem claim_C3_cooldown_suppression (cfg : Gate.DetectConfig)
    (inputs : List Gate.DetInput) (hcd : 0 ≤ cfg.cooldownMs)
    (hpos : ∀ i ∈ inputs, 0 < i.t)
    (hmono : List.Chain' (fun a b => a ≤ b) (inputs.map Gate.DetInput.t)) :
    List.Pairwise (fun t1 t2 => t1 + cfg.cooldownMs ≤ t2)
      (Gate.captures cfg Gate.initGateState inputs) := by
  have hchain : List.Chain (fun a b => a ≤ b) 0 (inputs.map Gate.DetInput.t) := by
    cases inputs with
    | nil => exact List.Chain.nil
    | cons i rest =>
      rw [List.map_cons, List.chain_cons]
      refine ⟨le_of_lt (hpos i (List.mem_cons_self i rest)), ?_⟩
      rw [List.map_cons] at hmono
      exact hmono
  have hinv0 : Gate.GateInv cfg Gate.initGateState 0 :=
    ⟨le_refl 0, fun _ _ => Or.inl rfl⟩
  exact (Gate.captures_bound cfg hcd inputs Gate.initGateState 0 hinv0 hchain hpos).1

/-- Witness for C3: 67 valid stable polls at the default configuration produce
exactly two captures, at 2600 ms and 6700 ms, and the pairwise cooldown gap
holds (2600 + 1500 ≤ 6700). -/
theorem claim_C3_witness :
    (0 : ℚ) ≤ Gate.DETECT.cooldownMs ∧
    Gate.captures Gate.DETECT Gate.initGateState (Gate.validFeed 67) = [2600, 6700] ∧
    List.Pairwise (fun t1 t2 => t1 + Gate.DETECT.cooldownMs ≤ t2)
      (Gate.captures Gate.DETECT Gate.initGateState (Gate.validFeed 67)) :=
  ⟨by norm_num [Gate.DETECT], by decide,
   claim_C3_cooldown_suppression Gate.DETECT (Gate.validFeed 67)
     (by norm_num [Gate.DETECT]) (validFeed_pos 67) (validFeed_mono 67)⟩

/-- Claim C4 (code bug): with `requireFaceForCapture = false`, the
LOCK_HAND → SEARCHING regression does not zero `stableStartTime`.  Hand-only
polls at 100 and 200 ms arm `stableStartTime = 200`; losing the hand at
300 ms regresses to SEARCHING with `stableStartTime` still 200; re-locking
at 400 ms and one more stable poll at 500 ms then reaches STABLE off the
stale window (fresh stability has held for only 100 ms < stabilityMs = 300). -/
theorem claim_C4_stale_stable_start :
    (Gate.runGate Gate.noFaceConfig Gate.initGateState
      [Gate.handOnlyInput 100, Gate.handOnlyInput 200,
       Gate.emptyInput 300]).detection.state = Gate.DetState.SEARCHING ∧
    (Gate.runGate Gate.noFaceConfig Gate.initGateState
      [Gate.handOnlyInput 100, Gate.handOnlyInput 200,
       Gate.emptyInput 300]).detection.stableStartTime = 200 ∧
    (Gate.runGate Gate.noFaceConfig Gate.initGateState
      [Gate.handOnlyInput 100, Gate.handOnlyInput 200, Gate.emptyInput 300,
       Gate.handOnlyInput 400, Gate.handOnlyInput 500]).detection.state =
      Gate.DetState.STABLE := by decide

/-- Claim C5 counterexample: after a capture at 2600 ms the gate sits in
COOLDOWN at 4000 ms; the update at 4100 ms has the cooldown elapsed
(4100 − 2600 ≥ 1500) and both detections valid, yet the next state is
SEARCHING, not LOCK_BOTH. -/
theorem claim_C5_counterexample :
    ((Gate.validInput 4100).face.any
      (fun f => decide (Gate.DETECT.scoreFace ≤ f.score)) = true) ∧
    ((Gate.validInput 4100).hand.any
      (fun hd => decide (Gate.DETECT.scoreHand ≤ hd.box.score)) = true) ∧
    (Gate.runGate Gate.DETECT Gate.initGateState
      (Gate.validFeed 40)).detection.state = Gate.DetState.COOLDOWN ∧
    Gate.DETECT.cooldownMs ≤ 4100 -
      (Gate.runGate Gate.DETECT Gate.initGateState
        (Gate.validFeed 40)).detection.lastCaptureTime ∧
    (Gate.updateDetectionState Gate.DETECT
      (Gate.runGate Gate.DETECT Gate.initGateState (Gate.validFeed 40))
      (Gate.validInput 4100)).detection.state = Gate.DetState.SEARCHING ∧
    Gate.DetState.SEARCHING ≠ Gate.DetState.LOCK_BOTH := by decide

/-- Claim C5 (amended): when the gate's update runs in state COOLDOWN and at
least `cooldownMs` have elapsed since `lastCaptureTime`, the next state is
SEARCHING unconditionally, whether or not the detections are still valid. -/
theorem claim_C5_amended_cooldown_exit (cfg : Gate.DetectConfig)
    (s : Gate.GateState) (inp : Gate.DetInput)
    (hst : s.detection.state = Gate.DetState.COOLDOWN)
    (hel : cfg.cooldownMs ≤ inp.t - s.detection.lastCaptureTime) :
    (Gate.updateDetectionState cfg s inp).detection.state =
      Gate.DetState.SEARCHING := by
  unfold Gate.updateDetectionState
  dsimp only
  rw [hst]
  dsimp only
  rw [if_pos hel]

/-- Witness for C5 (amended) at a concrete COOLDOWN state and input. -/
theorem claim_C5_witness :
    ((⟨⟨none, none, Gate.DetState.COOLDOWN, 0, 0, 10⟩, none⟩ :
      Gate.GateState).detection.state = Gate.DetState.COOLDOWN) ∧
    (Gate.DETECT.cooldownMs ≤ (Gate.emptyInput 2000).t -
      (⟨⟨none, none, Gate.DetState.COOLDOWN, 0, 0, 10⟩, none⟩ :
        Gate.GateState).detection.lastCaptureTime) ∧
    (Gate.updateDetectionState Gate.DETECT
      ⟨⟨none, none, Gate.DetState.COOLDOWN, 0, 0, 10⟩, none⟩
      (Gate.emptyInput 2000)).detection.state = Gate.DetState.SEARCHING :=
  ⟨rfl, by norm_num [Gate.DETECT, Gate.emptyInput],
   claim_C5_amended_cooldown_exit Gate.DETECT
     ⟨⟨none, none, Gate.DetState.COOLDOWN, 0, 0, 10⟩, none⟩
     (Gate.emptyInput 2000) rfl (by norm_num [Gate.DETECT, Gate.emptyInput])⟩

/-- Claim C6 counterexample: feeding valid, stable face and hand detections
for exactly `stabilityMs + autoCaptureDelayMs` (24 polls at 100 ms span
2300 ms from the first update) never reaches CAPTURE — the run ends in
STABLE, because one poll is consumed entering LOCK_BOTH before arming the
stability timer and another entering STABLE before arming the countdown. -/
theorem claim_C6_counterexample :
    ((Gate.gateTrace Gate.DETECT Gate.initGateState (Gate.validFeed 24)).countP
      (fun s => decide (s.detection.state = Gate.DetState.CAPTURE))) = 0 ∧
    (Gate.runGate Gate.DETECT Gate.initGateState
      (Gate.validFeed 24)).detection.state = Gate.DetState.STABLE := by decide

/-- Claim C6 (amended): feeding valid, stable face and hand detections for
`stabilityMs + autoCaptureDelayMs + 2·pollMs` (26 polls at 100 ms, spanning
2500 ms) deterministically reaches CAPTURE exactly once — at the final
update — and the update immediately following CAPTURE puts the gate in
COOLDOWN. -/
theorem claim_C6_amended_liveness :
    ((Gate.gateTrace Gate.DETECT Gate.initGateState (Gate.validFeed 26)).countP
      (fun s => decide (s.detection.state = Gate.DetState.CAPTURE))) = 1 ∧
    (Gate.runGate Gate.DETECT Gate.initGateState
      (Gate.validFeed 26)).detection.state = Gate.DetState.CAPTURE ∧
    (Gate.updateDetectionState Gate.DETECT
      (Gate.runGate Gate.DETECT Gate.initGateState (Gate.validFeed 26))
      (Gate.validInput 2700)).detection.state = Gate.DetState.COOLDOWN := by decide

/-- Claim C9: the quality scorers return the neutral zero on degenerate
input: `computeBrightness` on an empty pixel buffer, `computeBlurVar` when
width ≤ 2 or height ≤ 2 (no interior pixels, zero-size frames included), and
`computeMotionScore` whenever widths, heights, or buffer lengths differ. -/
theorem claim_C9_degenerate_inputs :
    (∀ img : Quality.ImageData, img.data = [] → Quality.computeBrightness img = 0) ∧
    (∀ img : Quality.ImageData, img.width ≤ 2 ∨ img.height ≤ 2 →
      Quality.computeBlurVar img = 0) ∧
    (∀ p c : Quality.ImageData,
      p.width ≠ c.width ∨ p.height ≠ c.height ∨ p.data.length ≠ c.data.length →
      Quality.computeMotionScore p c = 0) := by
  refine ⟨?_, ?_, ?_⟩
  · intro img h
    simp [Quality.computeBrightness, h]
  · intro img hwh
    unfold Quality.computeBlurVar
    by_cases hz : img.width * img.height = 0
    · rw [if_pos hz]
    · rw [if_neg hz]
      dsimp only
      by_cases hn : ((img.width : Int) - 2) * ((img.height : Int) - 2) ≤ 0
      · rw [if_pos hn]
      · rw [if_neg hn]
        have hpos : 0 < ((img.width : Int) - 2) * ((img.height : Int) - 2) :=
          lt_of_not_le hn
        have hwz : img.width ≠ 0 := by
          intro h0
          exact hz (by rw [h0, Nat.zero_mul])
        have hhz : img.height ≠ 0 := by
          intro h0
          exact hz (by rw [h0, Nat.mul_zero])
        rcases mul_pos_iff.mp hpos with ⟨h1, h2⟩ | ⟨h1, h2⟩
        · exfalso
          rcases hwh with h | h <;> omega
        · have hW : img.width = 1 := by omega
          have hH : img.height = 1 := by omega
          simp only [Quality.lapSums, hW, hH]
          norm_num
  · intro p c h
    unfold Quality.computeMotionScore
    rw [if_pos h]

/-- Witness for C9: an empty frame, a 2×5 frame, and a 1×1 / 2×1 frame pair. -/
theorem claim_C9_witness :
    Quality.computeBrightness ⟨0, 0, []⟩ = 0 ∧
    Quality.computeBlurVar ⟨2, 5, List.replicate 10 (7, 7, 7, 255)⟩ = 0 ∧
    Quality.computeMotionScore ⟨1, 1, [(0, 0, 0, 255)]⟩
      ⟨2, 1, [(0, 0, 0, 255), (0, 0, 0, 255)]⟩ = 0 :=
  ⟨claim_C9_degenerate_inputs.1 _ rfl,
   claim_C9_degenerate_inputs.2.1 _ (Or.inl (by norm_num)),
   claim_C9_degenerate_inputs.2.2 _ _ (Or.inl (by norm_num))⟩

end MainTheorems
